import Mathlib

/-!
Verification of the peer-discovery / host-election core of the WLAN Share
application (`app/main.py`), via a shallow embedding in Lean 4.

Strings from the Python source are modelled as `List Char`; network and
filesystem effects are modelled as explicit oracle parameters (what the
socket stack, the HTTP stack, the zeroconf stack and the filesystem would
answer), so every Python function becomes a pure Lean function of its
oracles.  `Except Unit` models a raised Python exception; `Option` models
Python's `None`.
-/

set_option maxRecDepth 10000

/-- String literals of the source, as `List Char`. -/
def str (s : String) : List Char := s.toList

/-- Python `s.split(sep)` for a one-character separator: splits a string into
the (possibly empty) pieces between occurrences of `sep`.  `"" → [""]`,
`"a..b" → ["a","","b"]`, exactly as in Python. -/
def splitOnChar (sep : Char) : List Char → List (List Char)
  | [] => [[]]
  | c :: rest =>
    let r := splitOnChar sep rest
    if c = sep then [] :: r
    else
      match r with
      | [] => [[c]]
      | h :: t => (c :: h) :: t

/-- Python `'.'.join(parts)`. -/
def dotJoin : List (List Char) → List Char
  | [] => []
  | [x] => x
  | x :: xs => x ++ '.' :: dotJoin xs

/-- Numeric value of a decimal digit string (helper for `pyIntParse` and for
the decimal-rendering round-trip proofs). -/
def digitsToNat (ds : List Char) : Nat :=
  ds.foldl (fun a c => a * 10 + (c.toNat - 48)) 0

/-- Python `int(s)` on the strings that occur here (octets of a dotted-quad):
`some` of the value on a non-empty all-digit string, `none` (= `ValueError`
raised) otherwise. -/
def pyIntParse (s : List Char) : Option Nat :=
  if s = [] then none
  else if s.all Char.isDigit then some (digitsToNat s) else none

/-- The decimal digit character for `d < 10` (codepoint `48 + d`). -/
def digitChar (d : Nat) : Char := Char.ofNat (48 + d)

/-- Decimal rendering of a natural number (Python `f-string` interpolation of
an `int`), fuel-based so that it reduces by `rfl`/`decide`. -/
def natDigitsAux : Nat → Nat → List Char → List Char
  | 0, _, acc => acc
  | fuel + 1, n, acc =>
    if n < 10 then digitChar n :: acc
    else natDigitsAux fuel (n / 10) (digitChar (n % 10) :: acc)

/-- Decimal rendering of a natural number, e.g. `natDigits 105 = "105"`. -/
def natDigits (n : Nat) : List Char := natDigitsAux (n + 1) n []

/-- A discovered or advertised service (`MdnsService` in the source):
name, IPv4 host literal, port. -/
structure MdnsService where
  name : List Char
  host : List Char
  port : Nat
deriving Repr, DecidableEq

/-- `"127.0.0.1"`, the fallback value of `get_local_ip` and the loopback
check of the scanner. -/
def loopbackIp : List Char := str "127.0.0.1"

/-- `get_local_ip` (main.py:81): opens a UDP socket toward `8.8.8.8` and reads
the local endpoint; any exception yields the fallback `"127.0.0.1"`.  The
socket interaction is the oracle `sock` (`.ok ip` = the local endpoint,
`.error` = the whole block raised). -/
def get_local_ip (sock : Except Unit (List Char)) : List Char :=
  match sock with
  | .ok ip => ip
  | .error _ => loopbackIp

/-- The URL `f"http://\x7bhost\x7d:\x7bport\x7d/status"` built by
`try_direct_connection`. -/
def statusUrl (host : List Char) (port : Nat) : List Char :=
  str "http://" ++ host ++ ':' :: natDigits port ++ str "/status"

/-- `try_direct_connection` (main.py:146): issue `GET /status` and report
whether the answer had HTTP status 200.  The oracle `http` maps the request
URL to `.ok status` (a response arrived) or `.error` (connection failure,
timeout, or an error status raised by `urlopen`); the `try/except` collapses
every raise to `False`, so the model is a total `Bool` function. -/
def try_direct_connection (http : List Char → Except Unit Nat) (host : List Char) (port : Nat) : Bool :=
  match http (statusUrl host port) with
  | .ok s => s == 200
  | .error _ => false

/-- The fixed candidate last-octet list of `scan_network_for_server`
(main.py:173), in declared order. -/
def SCAN_CANDIDATES : List Nat :=
  [1, 2, 100, 101, 102, 103, 104, 105, 50, 51, 52, 53, 54, 55,
   60, 61, 62, 63, 64, 65, 66, 67, 68, 69, 70]

/-- The host string `f"\x7bprefix\x7d\x7blast_octet\x7d"` probed by the scanner. -/
def mkHost (pfx : List Char) (octet : Nat) : List Char := pfx ++ natDigits octet

/-- The name of a scan-synthesized record (main.py:182). -/
def scanName : List Char := str "WLAN Share (scanned)"

/-- The `for last_octet in candidates` loop of `scan_network_for_server`
(main.py:176-182).  Besides the source's `Option` result it also returns the
list of hosts actually probed, in probe order, so that "never probes X" is a
statement about the model. -/
def scanLoop (http : List Char → Except Unit Nat) (pfx : List Char) (own port : Nat) :
    List Nat → Option MdnsService × List (List Char)
  | [] => (none, [])
  | c :: rest =>
    if c = own then scanLoop http pfx own port rest
    else
      let host := mkHost pfx c
      if try_direct_connection http host port then
        (some { name := scanName, host := host, port := port }, [host])
      else
        let r := scanLoop http pfx own port rest
        (r.1, host :: r.2)

/-- `scan_network_for_server` (main.py:158): loopback short-circuit, subnet
derivation, own-octet skip, candidate probing.  `sock` is the socket oracle
consumed by its internal `get_local_ip()` call; the `.error` result models the
uncaught `ValueError` of `int(parts[3])` on a non-numeric octet.  The second
component of the result is the probe log (see `scanLoop`). -/
def scan_network_for_server (sock : Except Unit (List Char))
    (http : List Char → Except Unit Nat) (port : Nat) :
    Except Unit (Option MdnsService × List (List Char)) :=
  let local_ip := get_local_ip sock
  if local_ip = loopbackIp then .ok (none, [])
  else
    let parts := splitOnChar '.' local_ip
    if parts.length = 4 then
      let pfx := dotJoin (parts.take 3) ++ ['.']
      match pyIntParse (parts.getD 3 []) with
      | none => .error ()
      | some own => .ok (scanLoop http pfx own port SCAN_CANDIDATES)
    else .ok (none, [])

/-- The fixed mDNS service type constant (main.py:57). -/
def MDNS_SERVICE_TYPE : List Char := str "_123tome._tcp.local."

/-- The advertised instance name
`f"123toMe-\x7bhostname\x7d.\x7bMDNS_SERVICE_TYPE\x7d"` (main.py:200). -/
def instanceName (hostname : List Char) : List Char :=
  str "123toMe-" ++ hostname ++ '.' :: MDNS_SERVICE_TYPE

/-- The data of a successful registration: the published `ServiceInfo`
(instance name, advertised address, port). -/
structure MdnsRegistrationInfo where
  name : List Char
  address : List Char
  port : Nat
deriving Repr, DecidableEq

/-- `register_mdns_service` (main.py:188): `none` when the zeroconf library is
absent (`zcAvailable = false`) or when any step of construction/registration
raises (`registerOk = false`, absorbing the `except` branch); otherwise the
constructed registration. -/
def register_mdns_service (zcAvailable registerOk : Bool) (hostname : List Char)
    (port : Nat) (local_ip : List Char) : Option MdnsRegistrationInfo :=
  if zcAvailable = false then none
  else if registerOk = false then none
  else some { name := instanceName hostname, address := local_ip, port := port }

/-- `discover_existing_service` (main.py:92): `none` when zeroconf is absent
or fails to initialize; otherwise the first fully-resolved record the browser
yields within the timeout window (`firstResolved`, an oracle: `none` = the
wait timed out with nothing resolved). -/
def discover_existing_service (zcAvailable zcInitOk : Bool)
    (firstResolved : Option MdnsService) : Option MdnsService :=
  if zcAvailable = false then none
  else if zcInitOk = false then none
  else firstResolved

/-- State of the underlying zeroconf handle held by a registration.  The
oracles acting on it in `close` may raise arbitrarily. -/
structure ZcHandle where
  registered : Bool
  stackOpen : Bool
deriving Repr, DecidableEq

/-- Python `with suppress(Exception): act` — run `act`, keep its state on
success, keep the prior state and swallow the exception on a raise. -/
def pySuppress (act : ZcHandle → Except Unit ZcHandle) (s : ZcHandle) : ZcHandle :=
  match act s with
  | .ok t => t
  | .error _ => s

namespace MdnsRegistration

/-- `MdnsRegistration.close` (main.py:74): `unregister_service` then
`zeroconf.close()`, each wrapped in `suppress(Exception)`.  The two oracles
are the underlying zeroconf operations; `close` itself returns `.ok` by
construction because every raise is suppressed — exactly the source's shape,
where both statements of the body sit inside `with suppress(Exception)`. -/
def close (unregister_service close_handle : ZcHandle → Except Unit ZcHandle)
    (s : ZcHandle) : Except Unit ZcHandle :=
  Except.ok (pySuppress close_handle (pySuppress unregister_service s))

end MdnsRegistration

/-- The election result of one process run (spec `ElectionResult`). -/
inductive ElectionResult where
  | Hosting : ElectionResult
  | ClientOf (host : List Char) (port : Nat) (displayName : List Char) : ElectionResult
deriving Repr, DecidableEq

/-- The well-known port (main.py:360, `HOST, PORT = "0.0.0.0", 8000`). -/
def PORT : Nat := 8000

/-- Everything the environment decides during one run of the `__main__`
block: the socket oracle of the scanner's internal `get_local_ip` call, the
HTTP liveness oracle, what `discover_existing_service` would return if it
were invoked, the zeroconf availability/registration oracles, the socket
oracle of the hosting branch's own `get_local_ip()` call, and the machine
hostname. -/
structure MainEnv where
  sock : Except Unit (List Char)
  http : List Char → Except Unit Nat
  discoverResult : Option MdnsService
  zcAvailable : Bool
  registerOk : Bool
  sock2 : Except Unit (List Char)
  hostname : List Char

/-- The observable outcome of the election part of `__main__`. -/
structure MainOutcome where
  result : ElectionResult
  target_host : List Char
  target_port : Nat
  mdns_registration : Option MdnsRegistrationInfo
  serverStarted : Bool
  advertiserInvoked : Bool
deriving Repr, DecidableEq

/-- The election of the `__main__` block (main.py:355-403):
`discovered = scan_network_for_server(PORT)`, `is_hosting = discovered is
None`, then either the hosting branch (start uvicorn, call
`register_mdns_service(PORT, get_local_ip())`) or the client branch (adopt
the discovered host/port, no server, no registration).  Note that
`discover_existing_service` is never called here — `env.discoverResult`
is deliberately unread, mirroring the source. -/
def runMain (env : MainEnv) : Except Unit MainOutcome :=
  match scan_network_for_server env.sock env.http PORT with
  | .error e => .error e
  | .ok (discovered, _probeLog) =>
    match discovered with
    | some svc =>
      .ok { result := ElectionResult.ClientOf svc.host svc.port svc.name
            target_host := svc.host
            target_port := svc.port
            mdns_registration := none
            serverStarted := false
            advertiserInvoked := false }
    | none =>
      .ok { result := ElectionResult.Hosting
            target_host := loopbackIp
            target_port := PORT
            mdns_registration :=
              register_mdns_service env.zcAvailable env.registerOk env.hostname
                PORT (get_local_ip env.sock2)
            serverStarted := true
            advertiserInvoked := true }

/-- An absolute filesystem path, as a list of components. -/
abbrev FsPath := List (List Char)

/-- The model of the process's `SHARED_DIR` (main.py:54, the default
`Path.home() / "WLAN-Share"`). -/
def SHARED_DIR_M : FsPath := [str "home", str "user", str "WLAN-Share"]

/-- The filesystem visible to the HTTP endpoints: an association list from
absolute (normalized) path to file content.  Only regular files are modelled;
the endpoints' own operations create nothing else. -/
abbrev FileSystem := List (FsPath × List Nat)

/-- First entry of `fs` at path `p`. -/
def fsLookup (fs : FileSystem) (p : FsPath) : Option (List Nat) :=
  match fs with
  | [] => none
  | (q, c) :: rest => if q = p then some c else fsLookup rest p

/-- Remove every entry at path `p` (model of `unlink` / overwrite). -/
def fsErase (fs : FileSystem) (p : FsPath) : FileSystem :=
  match fs with
  | [] => []
  | (q, c) :: rest => if q = p then fsErase rest p else (q, c) :: fsErase rest p

/-- `open(p, "wb")` + write: (over)write the file at `p`. -/
def fsInsert (fs : FileSystem) (p : FsPath) (content : List Nat) : FileSystem :=
  (p, content) :: fsErase fs p

/-- One step of OS-level path resolution: `""` and `"."` components are
no-ops, `".."` moves to the parent, any other component descends. -/
def normStep (acc : FsPath) (comp : List Char) : FsPath :=
  if comp = [] ∨ comp = ['.'] then acc
  else if comp = ['.', '.'] then acc.dropLast
  else acc ++ [comp]

/-- The absolute path the OS resolves for `SHARED_DIR / filename` — the path
both `download_file` and `delete_file` consult.  The filename is joined
verbatim (no sanitization), split on the path separator, and resolved
component by component. -/
def requestPath (filename : List Char) : FsPath :=
  (splitOnChar '/' filename).foldl normStep SHARED_DIR_M

/-- `some name` when `p` is a direct child of the shared directory (the flat
file set), `none` otherwise. -/
def childOf (p : FsPath) : Option (List Char) :=
  if p.dropLast = SHARED_DIR_M then p.getLast? else none

/-- Python `name.startswith('.')`. -/
def startsWithDot (n : List Char) : Bool :=
  match n with
  | [] => false
  | c :: _ => c = '.'

/-- Lexicographic comparison of names by codepoint (Python `sorted` on
strings). -/
def nameLe : List Char → List Char → Bool
  | [], _ => true
  | _ :: _, [] => false
  | a :: as, b :: bs => if a = b then nameLe as bs else decide (a < b)

/-- Sorted insertion, for the model of Python's `sorted`. -/
def insertSorted (x : List Char) : List (List Char) → List (List Char)
  | [] => [x]
  | y :: ys => if nameLe x y then x :: y :: ys else y :: insertSorted x ys

/-- Model of Python's `sorted(·)` on names (the claims depend only on the
underlying set, which sorting preserves). -/
def sortNames : List (List Char) → List (List Char)
  | [] => []
  | x :: xs => insertSorted x (sortNames xs)

/-- The names collected by `get_file_list`'s loop (main.py:223-230): direct
children of the shared directory whose name does not start with `'.'`.
The size metadata of the source's dicts is dropped. -/
def visibleNames (fs : FileSystem) : List (List Char) :=
  match fs with
  | [] => []
  | (p, _) :: rest =>
    match childOf p with
    | some n => if startsWithDot n then visibleNames rest else n :: visibleNames rest
    | none => visibleNames rest

/-- `get_file_list` (main.py:220): visible (non-hidden) direct children,
sorted by name. -/
def get_file_list (fs : FileSystem) : List (List Char) :=
  sortNames (visibleNames fs)

/-- The file set of `SHARED_DIR.glob("*")` (main.py:265): every direct child
file, hidden ones included (`pathlib`'s glob does not special-case a leading
dot), as (name, content) pairs. -/
def fsChildren (fs : FileSystem) : List (List Char × List Nat) :=
  match fs with
  | [] => []
  | (p, c) :: rest =>
    match childOf p with
    | some n => (n, c) :: fsChildren rest
    | none => fsChildren rest

/-- `upload_file` (main.py:243): `400` on an empty filename, else replace
both path separators by `'_'` and write the content under the sanitized name
inside the shared directory.  Returns the new filesystem and the stored
name. -/
def pyReplaceChar (s : List Char) (old new : Char) : List Char :=
  s.map (fun c => if c = old then new else c)

/-- The sanitization of `upload_file` (main.py:247):
`filename.replace("/", "_").replace("\\", "_")`. -/
def sanitizeFilename (filename : List Char) : List Char :=
  pyReplaceChar (pyReplaceChar filename '/' '_') '\\' '_'

/-- `upload_file` (main.py:243-254). -/
def upload_file (fs : FileSystem) (filename : List Char) (content : List Nat) :
    Except Nat (FileSystem × List Char) :=
  if filename = [] then .error 400
  else
    let stored := sanitizeFilename filename
    .ok (fsInsert fs (requestPath stored) content, stored)

/-- `download_file` (main.py:256): `404` when nothing exists at
`SHARED_DIR / filename`, else the file's bytes (`FileResponse`). -/
def download_file (fs : FileSystem) (filename : List Char) : Except Nat (List Nat) :=
  match fsLookup fs (requestPath filename) with
  | none => .error 404
  | some content => .ok content

/-- `delete_file` (main.py:279): `404` when nothing exists at
`SHARED_DIR / filename`, else unlink it and succeed with the new
filesystem. -/
def delete_file (fs : FileSystem) (filename : List Char) : Except Nat FileSystem :=
  match fsLookup fs (requestPath filename) with
  | none => .error 404
  | some _ => .ok (fsErase fs (requestPath filename))

/-- `download_all_as_zip` (main.py:263): `404` when the glob is empty, else
the archive's (arcname, content) pairs — every direct child file, hidden ones
included. -/
def download_all_as_zip (fs : FileSystem) : Except Nat (List (List Char × List Nat)) :=
  if (fsChildren fs).isEmpty then .error 404
  else .ok (fsChildren fs)

/-! ### Reference functions for the scanner's specification -/

/-- The candidate octets actually iterated: the declared list with the
caller's own octet skipped (the `continue` of main.py:177). -/
def skipOwn (own : Nat) : List Nat → List Nat
  | [] => []
  | c :: rest => if c = own then skipOwn own rest else c :: skipOwn own rest

/-- First element of `l` satisfying `p`, in list order. -/
def firstHit (p : List Char → Bool) : List (List Char) → Option (List Char)
  | [] => none
  | h :: t => if p h then some h else firstHit p t

/-- The hosts a left-to-right scan probes: every host up to and including the
first hit, or all of them when none hits. -/
def probeTrace (p : List Char → Bool) : List (List Char) → List (List Char)
  | [] => []
  | h :: t => if p h then [h] else h :: probeTrace p t

/-- The subnet part of the probed addresses:
`'.'.join(parts[:3]) + '.'` (main.py:169). -/
def scanPfx (ip : List Char) : List Char :=
  dotJoin ((splitOnChar '.' ip).take 3) ++ ['.']

/-- The full list of addresses the scanner may probe, in declared candidate
order, own octet skipped. -/
def scanHosts (ip : List Char) (own : Nat) : List (List Char) :=
  (skipOwn own SCAN_CANDIDATES).map (mkHost (scanPfx ip))

/-- The probe predicate the scanner applies to each candidate address. -/
def scanProbe (http : List Char → Except Unit Nat) (port : Nat) : List Char → Bool :=
  fun h => try_direct_connection http h port

/-! ### Concrete environments and directories used by the witnesses -/

/-- An HTTP oracle under which every probe fails (no server anywhere). -/
def httpNone : List Char → Except Unit Nat := fun _ => Except.error ()

/-- An HTTP oracle under which every probe succeeds. -/
def httpAll200 : List Char → Except Unit Nat := fun _ => Except.ok 200

/-- An HTTP oracle with exactly one live server, at `192.168.1.100:8000`. -/
def httpW5 : List Char → Except Unit Nat :=
  fun u => if u = statusUrl (str "192.168.1.100") 8000 then Except.ok 200 else Except.error ()

/-- A demo primary local IP. -/
def ipDemo : List Char := str "192.168.1.42"

/-- A service an mDNS browse would resolve: an existing host at
`192.168.1.7`, an address outside the scanner's candidate set. -/
def svcC1 : MdnsService :=
  { name := str "123toMe-beta._123tome._tcp.local.", host := str "192.168.1.7", port := 8000 }

/-- Environment for C1: the subnet scan finds nothing, while the Service
Discoverer would resolve `svcC1` if it were invoked. -/
def envC1 : MainEnv :=
  { sock := Except.ok ipDemo, http := httpNone, discoverResult := some svcC1,
    zcAvailable := true, registerOk := true, sock2 := Except.ok ipDemo,
    hostname := str "alpha" }

/-- Environment for C2's counterexample: nothing on the network and the
zeroconf library absent, so the process hosts but advertisement returns
`None`. -/
def envC2 : MainEnv :=
  { sock := Except.ok ipDemo, http := httpNone, discoverResult := none,
    zcAvailable := false, registerOk := true, sock2 := Except.ok ipDemo,
    hostname := str "alpha" }

/-- Environment for C2's witness: hosting with a successful advertisement. -/
def envW2 : MainEnv :=
  { sock := Except.ok ipDemo, http := httpNone, discoverResult := none,
    zcAvailable := true, registerOk := true, sock2 := Except.ok ipDemo,
    hostname := str "alpha" }

/-- The outcome `runMain` computes on `envW2`. -/
def outW2 : MainOutcome :=
  { result := ElectionResult.Hosting, target_host := loopbackIp, target_port := PORT,
    mdns_registration :=
      some { name := instanceName (str "alpha"), address := ipDemo, port := PORT },
    serverStarted := true, advertiserInvoked := true }

/-- A shared directory holding one ordinary file. -/
def demoFs8 : FileSystem := [(SHARED_DIR_M ++ [str "notes.txt"], [10, 20])]

/-- A shared directory holding only a hidden file. -/
def demoFs9 : FileSystem := [(SHARED_DIR_M ++ [str ".secret"], [1, 2, 3])]

/-! ### Decimal rendering: round-trip and injectivity -/

theorem natDigitsAux_append (fuel : Nat) :
    ∀ n acc, natDigitsAux fuel n acc = natDigitsAux fuel n [] ++ acc := by
  induction fuel with
  | zero => intro n acc; rfl
  | succ f ih =>
    intro n acc
    by_cases h : n < 10
    · simp [natDigitsAux, h]
    · simp only [natDigitsAux, if_neg h]
      rw [ih (n / 10) (digitChar (n % 10) :: acc), ih (n / 10) [digitChar (n % 10)]]
      simp

theorem digitChar_toNat (d : Nat) (h : d < 10) : (digitChar d).toNat = 48 + d := by
  interval_cases d <;> rfl

theorem digitsToNat_append_one (ds : List Char) (c : Char) :
    digitsToNat (ds ++ [c]) = digitsToNat ds * 10 + (c.toNat - 48) := by
  simp [digitsToNat, List.foldl_append]

theorem digitsToNat_natDigitsAux :
    ∀ fuel n, n < fuel → digitsToNat (natDigitsAux fuel n []) = n := by
  intro fuel
  induction fuel with
  | zero => intro n h; omega
  | succ f ih =>
    intro n h
    by_cases h10 : n < 10
    · simp only [natDigitsAux, if_pos h10]
      have : digitsToNat [digitChar n] = (digitChar n).toNat - 48 := by
        simp [digitsToNat]
      rw [this, digitChar_toNat n h10]
      omega
    · have hrec : natDigitsAux (f + 1) n [] =
          natDigitsAux f (n / 10) [] ++ [digitChar (n % 10)] := by
        simp only [natDigitsAux, if_neg h10]
        exact natDigitsAux_append f (n / 10) _
      rw [hrec, digitsToNat_append_one, ih (n / 10) (by omega),
        digitChar_toNat (n % 10) (by omega)]
      omega

theorem digitsToNat_natDigits (n : Nat) : digitsToNat (natDigits n) = n :=
  digitsToNat_natDigitsAux (n + 1) n (by omega)

theorem natDigits_inj {m n : Nat} (h : natDigits m = natDigits n) : m = n := by
  have hm := digitsToNat_natDigits m
  rw [h, digitsToNat_natDigits n] at hm
  exact hm.symm

theorem mkHost_inj {pfx : List Char} {m n : Nat} (h : mkHost pfx m = mkHost pfx n) :
    m = n := by
  unfold mkHost at h
  exact natDigits_inj (List.append_cancel_left h)

/-! ### Splitting -/

theorem splitOnChar_no_sep {sep : Char} {s : List Char} (h : sep ∉ s) :
    splitOnChar sep s = [s] := by
  induction s with
  | nil => rfl
  | cons c rest ih =>
    have hc : c ≠ sep := fun hcs => h (hcs ▸ List.mem_cons_self c rest)
    have hr : sep ∉ rest := fun hm => h (List.mem_cons_of_mem c hm)
    simp [splitOnChar, hc, ih hr]

/-! ### The scanner loop versus its specification -/

theorem scanLoop_eq (http : List Char → Except Unit Nat) (pfx : List Char)
    (own port : Nat) (cands : List Nat) :
    scanLoop http pfx own port cands =
      ((firstHit (fun h => try_direct_connection http h port)
          ((skipOwn own cands).map (mkHost pfx))).map
          (fun h => { name := scanName, host := h, port := port }),
        probeTrace (fun h => try_direct_connection http h port)
          ((skipOwn own cands).map (mkHost pfx))) := by
  induction cands with
  | nil => rfl
  | cons c rest ih =>
    by_cases hc : c = own
    · simp [scanLoop, skipOwn, hc, ih]
    · by_cases hp : try_direct_connection http (mkHost pfx c) port
      · simp [scanLoop, skipOwn, hc, hp, firstHit, probeTrace]
      · simp only [scanLoop, if_neg hc, if_neg hp, skipOwn, List.map_cons]
        rw [ih]
        simp [firstHit, probeTrace, hp]

theorem skipOwn_mem {own : Nat} {c : Nat} :
    ∀ {l : List Nat}, c ∈ skipOwn own l → c ∈ l ∧ c ≠ own := by
  intro l
  induction l with
  | nil => intro h; cases h
  | cons x rest ih =>
    intro h
    by_cases hx : x = own
    · simp only [skipOwn, if_pos hx] at h
      rcases ih h with ⟨h1, h2⟩
      exact ⟨List.mem_cons_of_mem x h1, h2⟩
    · simp only [skipOwn, if_neg hx] at h
      rcases List.mem_cons.mp h with hcx | hmem
      · subst hcx
        exact ⟨List.mem_cons_self c rest, hx⟩
      · rcases ih hmem with ⟨h1, h2⟩
        exact ⟨List.mem_cons_of_mem x h1, h2⟩

theorem probeTrace_subset {p : List Char → Bool} {h : List Char} :
    ∀ {l : List (List Char)}, h ∈ probeTrace p l → h ∈ l := by
  intro l
  induction l with
  | nil => intro hm; cases hm
  | cons x rest ih =>
    intro hm
    by_cases hx : p x
    · simp only [probeTrace, if_pos hx] at hm
      rw [List.mem_singleton] at hm
      subst hm
      exact List.mem_cons_self _ _
    · simp only [probeTrace, if_neg hx] at hm
      rcases List.mem_cons.mp hm with hcx | hmem
      · subst hcx
        exact List.mem_cons_self h rest
      · exact List.mem_cons_of_mem x (ih hmem)

theorem firstHit_some {p : List Char → Bool} {h : List Char} :
    ∀ {l : List (List Char)}, firstHit p l = some h → p h = true ∧ h ∈ l := by
  intro l
  induction l with
  | nil => intro hm; cases hm
  | cons x rest ih =>
    intro hm
    by_cases hx : p x
    · simp only [firstHit, if_pos hx] at hm
      cases hm
      exact ⟨hx, by simp⟩
    · simp only [firstHit, if_neg hx] at hm
      rcases ih hm with ⟨h1, h2⟩
      exact ⟨h1, List.mem_cons_of_mem x h2⟩

theorem firstHit_none {p : List Char → Bool} :
    ∀ {l : List (List Char)}, (∀ h ∈ l, p h = false) → firstHit p l = none := by
  intro l
  induction l with
  | nil => intro _; rfl
  | cons x rest ih =>
    intro hall
    have hx : p x = false := hall x (by simp)
    simp only [firstHit, hx, Bool.false_eq_true, if_false]
    exact ih (fun h hm => hall h (List.mem_cons_of_mem x hm))

/-! ### Filesystem lemmas -/

theorem fsLookup_fsErase (fs : FileSystem) (p : FsPath) :
    fsLookup (fsErase fs p) p = none := by
  induction fs with
  | nil => rfl
  | cons e rest ih =>
    obtain ⟨q, c⟩ := e
    by_cases hq : q = p
    · simpa [fsErase, hq] using ih
    · simpa [fsErase, fsLookup, hq] using ih

theorem mem_insertSorted {n x : List Char} :
    ∀ {l : List (List Char)}, n ∈ insertSorted x l → n = x ∨ n ∈ l := by
  intro l
  induction l with
  | nil =>
    intro h
    rw [insertSorted, List.mem_singleton] at h
    exact Or.inl h
  | cons y ys ih =>
    intro h
    by_cases hle : nameLe x y
    · rw [insertSorted, if_pos hle] at h
      rcases List.mem_cons.mp h with h1 | h1
      · exact Or.inl h1
      · exact Or.inr h1
    · rw [insertSorted, if_neg hle] at h
      rcases List.mem_cons.mp h with h1 | h1
      · exact Or.inr (h1 ▸ List.mem_cons_self _ _)
      · rcases ih h1 with h2 | h2
        · exact Or.inl h2
        · exact Or.inr (List.mem_cons_of_mem y h2)

theorem mem_sortNames {n : List Char} :
    ∀ {l : List (List Char)}, n ∈ sortNames l → n ∈ l := by
  intro l
  induction l with
  | nil => intro h; cases h
  | cons x xs ih =>
    intro h
    rw [sortNames] at h
    rcases mem_insertSorted h with h1 | h1
    · exact h1 ▸ List.mem_cons_self _ _
    · exact List.mem_cons_of_mem x (ih h1)

theorem visibleNames_not_hidden {n : List Char} :
    ∀ {fs : FileSystem}, n ∈ visibleNames fs → startsWithDot n = false := by
  intro fs
  induction fs with
  | nil => intro h; cases h
  | cons e rest ih =>
    obtain ⟨p, c⟩ := e
    intro h
    rcases hco : childOf p with _ | m
    · simp only [visibleNames, hco] at h
      exact ih h
    · simp only [visibleNames, hco] at h
      by_cases hm : startsWithDot m = true
      · rw [if_pos hm] at h
        exact ih h
      · rw [if_neg hm] at h
        rcases List.mem_cons.mp h with h1 | h1
        · subst h1
          simpa using hm
        · exact ih h1

theorem childOf_concat (n : List Char) :
    childOf (SHARED_DIR_M ++ [n]) = some n := by
  unfold childOf
  rw [List.dropLast_concat, List.getLast?_concat]
  simp

theorem fsChildren_mem {n : List Char} {content : List Nat} :
    ∀ {fs : FileSystem}, (SHARED_DIR_M ++ [n], content) ∈ fs →
      (n, content) ∈ fsChildren fs := by
  intro fs
  induction fs with
  | nil => intro h; cases h
  | cons e rest ih =>
    intro h
    rcases List.mem_cons.mp h with h1 | h1
    · rw [← h1, fsChildren, childOf_concat]
      exact List.mem_cons_self _ _
    · obtain ⟨p, c⟩ := e
      rw [fsChildren]
      rcases hco : childOf p with _ | m
      · exact ih h1
      · exact List.mem_cons_of_mem _ (ih h1)

/-! ### Sanitization lemmas -/

theorem sanitize_underscore {filename : List Char}
    (h : '/' ∈ filename ∨ '\\' ∈ filename) : '_' ∈ sanitizeFilename filename := by
  unfold sanitizeFilename pyReplaceChar
  rw [List.map_map]
  rcases h with h | h
  · refine List.mem_map.mpr ⟨'/', h, ?_⟩
    decide
  · refine List.mem_map.mpr ⟨'\\', h, ?_⟩
    decide

theorem sanitize_no_sep {filename : List Char} {c : Char}
    (h : c ∈ sanitizeFilename filename) : c ≠ '/' ∧ c ≠ '\\' := by
  unfold sanitizeFilename pyReplaceChar at h
  rw [List.map_map] at h
  rcases List.mem_map.mp h with ⟨a, _, ha⟩
  subst ha
  by_cases h1 : a = '/'
  · subst h1; decide
  · by_cases h2 : a = '\\'
    · subst h2; decide
    · simp [Function.comp, h1, h2]

theorem requestPath_flat {name : List Char} (hus : '_' ∈ name)
    (hsep : '/' ∉ name) : requestPath name = SHARED_DIR_M ++ [name] := by
  unfold requestPath
  rw [splitOnChar_no_sep hsep]
  have h1 : name ≠ [] := by
    intro h; rw [h] at hus; cases hus
  have h2 : name ≠ ['.'] := by
    intro h; rw [h] at hus; simp at hus
  have h3 : name ≠ ['.', '.'] := by
    intro h; rw [h] at hus; simp at hus
  simp only [List.foldl_cons, List.foldl_nil, normStep, h1, h2, h3]
  simp [h1, h2, h3]

/-! ### Claim theorems -/

/-- C1: the claim says the election runs the Service Discoverer and becomes
Hosting only if both the Scanner and the Discoverer report nothing.  The code
never invokes `discover_existing_service`: in an environment where the
Discoverer would resolve an existing service (`svcC1`, at an address outside
the scanner's candidate set) but the scan finds nothing, `runMain` still
elects Hosting. -/
theorem c1_election_skips_discoverer :
    discover_existing_service true true envC1.discoverResult = some svcC1
    ∧ (runMain envC1).toOption.map MainOutcome.result = some ElectionResult.Hosting :=
  ⟨rfl, rfl⟩

/-- C2 counterexample: the claim's "Registration is non-none iff Hosting"
fails left-to-right: with the zeroconf library absent (`envC2`), the process
elects Hosting yet `mdns_registration` is `none`. -/
theorem c2_counterexample :
    (runMain envC2).toOption.map MainOutcome.result = some ElectionResult.Hosting
    ∧ (runMain envC2).toOption.map MainOutcome.mdns_registration = some none :=
  ⟨rfl, rfl⟩

/-- C4: when the machine's primary outbound IP resolves to the loopback
address, `scan_network_for_server` returns `none` immediately with an empty
probe log — no liveness probe is performed. -/
theorem c4_loopback_no_probe (sock : Except Unit (List Char))
    (http : List Char → Except Unit Nat) (port : Nat)
    (h : get_local_ip sock = loopbackIp) :
    scan_network_for_server sock http port = Except.ok (none, []) := by
  unfold scan_network_for_server
  simp [h]

/-- C4 witness: with the socket raising (so `get_local_ip` falls back to
`"127.0.0.1"`), the scanner returns `(none, [])` even under an oracle where
every probe would succeed. -/
theorem c4_witness :
    get_local_ip (Except.error ()) = loopbackIp
    ∧ scan_network_for_server (Except.error ()) httpAll200 9999 = Except.ok (none, []) :=
  ⟨rfl, c4_loopback_no_probe (Except.error ()) httpAll200 9999 rfl⟩

/-- C6: `try_direct_connection` is a total boolean function of its oracles
(every raise is caught), and it returns `true` exactly when the `/status`
request yields a response with HTTP status 200; any connection failure,
timeout or non-200 response yields `false`. -/
theorem c6_probe_true_iff_200 (http : List Char → Except Unit Nat)
    (host : List Char) (port : Nat) :
    try_direct_connection http host port = true
      ↔ http (statusUrl host port) = Except.ok 200 := by
  unfold try_direct_connection
  cases h : http (statusUrl host port) with
  | error e => simp
  | ok s => simp

/-- C7: `MdnsRegistration.close` returns normally whatever the underlying
zeroconf unregistration/shutdown operations do (both are wrapped in
`suppress(Exception)`), and calling it a second time — on the state an
earlier close left behind — again returns normally.  No call ever raises. -/
theorem c7_close_idempotent_no_raise
    (unreg ch : ZcHandle → Except Unit ZcHandle) (s : ZcHandle) :
    ∃ t u, MdnsRegistration.close unreg ch s = Except.ok t
      ∧ MdnsRegistration.close unreg ch t = Except.ok u :=
  ⟨_, _, rfl, rfl⟩

/-- C10: `download_file` and `delete_file` join the path parameter verbatim
to the shared directory: for the filename `".."` the resolved path is the
shared directory's parent — not a direct child of the shared directory — and
both endpoints operate on that outside entry. -/
theorem c10_verbatim_join_escapes :
    requestPath (str "..") = [str "home", str "user"]
    ∧ childOf (requestPath (str "..")) = none
    ∧ download_file [([str "home", str "user"], [7])] (str "..") = Except.ok [7]
    ∧ delete_file [([str "home", str "user"], [7])] (str "..") = Except.ok [] :=
  ⟨rfl, rfl, rfl, rfl⟩

/-- C3: for every uploaded filename containing a path separator, upload
succeeds, stores the content under the sanitized flat name, the path written
is a direct child of the shared directory (never outside it), and the stored
name contains no separator. -/
theorem c3_upload_sanitizes (fs : FileSystem) (filename : List Char)
    (content : List Nat) (h : '/' ∈ filename ∨ '\\' ∈ filename) :
    upload_file fs filename content
      = Except.ok (fsInsert fs (SHARED_DIR_M ++ [sanitizeFilename filename]) content,
          sanitizeFilename filename)
    ∧ requestPath (sanitizeFilename filename) = SHARED_DIR_M ++ [sanitizeFilename filename]
    ∧ childOf (SHARED_DIR_M ++ [sanitizeFilename filename]) = some (sanitizeFilename filename)
    ∧ '/' ∉ sanitizeFilename filename ∧ '\\' ∉ sanitizeFilename filename := by
  have hus : '_' ∈ sanitizeFilename filename := sanitize_underscore h
  have hsep : '/' ∉ sanitizeFilename filename := fun hm => (sanitize_no_sep hm).1 rfl
  have hsep2 : '\\' ∉ sanitizeFilename filename := fun hm => (sanitize_no_sep hm).2 rfl
  have hrp := requestPath_flat hus hsep
  have hne : filename ≠ [] := by
    rcases h with h | h <;> (intro he; rw [he] at h; cases h)
  refine ⟨?_, hrp, childOf_concat _, hsep, hsep2⟩
  unfold upload_file
  rw [if_neg hne]
  simp only [hrp]

/-- C3 witness: uploading `"../../etc/passwd"` stores the flat name
`".._.._etc_passwd"` inside the shared directory. -/
theorem c3_witness :
    upload_file [] (str "../../etc/passwd") [5]
      = Except.ok
          (fsInsert [] (SHARED_DIR_M ++ [sanitizeFilename (str "../../etc/passwd")]) [5],
            sanitizeFilename (str "../../etc/passwd"))
    ∧ requestPath (sanitizeFilename (str "../../etc/passwd"))
        = SHARED_DIR_M ++ [sanitizeFilename (str "../../etc/passwd")]
    ∧ childOf (SHARED_DIR_M ++ [sanitizeFilename (str "../../etc/passwd")])
        = some (sanitizeFilename (str "../../etc/passwd"))
    ∧ '/' ∉ sanitizeFilename (str "../../etc/passwd")
    ∧ '\\' ∉ sanitizeFilename (str "../../etc/passwd") :=
  c3_upload_sanitizes [] (str "../../etc/passwd") [5] (Or.inl (by decide))

/-- C8: `download_file` and `delete_file` answer 404 exactly when no entry
exists at the path `SHARED_DIR / filename`; on an existing entry, download
returns the file's bytes and delete removes it and succeeds. -/
theorem c8_download_delete_404 (fs : FileSystem) (filename : List Char) :
    (download_file fs filename = Except.error 404
      ↔ fsLookup fs (requestPath filename) = none)
    ∧ (∀ content, fsLookup fs (requestPath filename) = some content →
        download_file fs filename = Except.ok content)
    ∧ (delete_file fs filename = Except.error 404
      ↔ fsLookup fs (requestPath filename) = none)
    ∧ (∀ content, fsLookup fs (requestPath filename) = some content →
        ∃ fs2, delete_file fs filename = Except.ok fs2
          ∧ fsLookup fs2 (requestPath filename) = none) := by
  rcases hl : fsLookup fs (requestPath filename) with _ | c
  · refine ⟨?_, ?_, ?_, ?_⟩
    · simp [download_file, hl]
    · intro content hc; cases hc
    · simp [delete_file, hl]
    · intro content hc; cases hc
  · refine ⟨?_, ?_, ?_, ?_⟩
    · simp [download_file, hl]
    · intro content hc
      injection hc with hc
      subst hc
      simp [download_file, hl]
    · simp [delete_file, hl]
    · intro content hc
      exact ⟨fsErase fs (requestPath filename), by simp [delete_file, hl],
        fsLookup_fsErase fs (requestPath filename)⟩

/-- C8 witness: on a shared directory holding `notes.txt`, download returns
its bytes and delete removes it. -/
theorem c8_witness :
    download_file demoFs8 (str "notes.txt") = Except.ok [10, 20]
    ∧ ∃ fs2, delete_file demoFs8 (str "notes.txt") = Except.ok fs2
        ∧ fsLookup fs2 (requestPath (str "notes.txt")) = none :=
  ⟨(c8_download_delete_404 demoFs8 (str "notes.txt")).2.1 [10, 20] (by rfl),
   (c8_download_delete_404 demoFs8 (str "notes.txt")).2.2.2 [10, 20] (by rfl)⟩

/-- C9: the `/zip` archive and the listing disagree on hidden files: a child
whose name starts with `'.'` never appears in `get_file_list`, yet
`download_all_as_zip` succeeds and includes it. -/
theorem c9_zip_includes_hidden (fs : FileSystem) (n : List Char)
    (content : List Nat) (hmem : (SHARED_DIR_M ++ [n], content) ∈ fs)
    (hhid : startsWithDot n = true) :
    n ∉ get_file_list fs
    ∧ ∃ files, download_all_as_zip fs = Except.ok files ∧ (n, content) ∈ files := by
  constructor
  · intro hin
    rw [get_file_list] at hin
    have hvis := visibleNames_not_hidden (mem_sortNames hin)
    rw [hhid] at hvis
    cases hvis
  · have hc := fsChildren_mem hmem
    have hne : (fsChildren fs).isEmpty = false := by
      cases hfc : fsChildren fs
      · rw [hfc] at hc; cases hc
      · rfl
    exact ⟨fsChildren fs, by simp [download_all_as_zip, hne], hc⟩

/-- C9 witness: a shared directory containing only the hidden file
`.secret` — the listing is empty, yet `/zip` returns an archive containing
it rather than 404. -/
theorem c9_witness :
    get_file_list demoFs9 = []
    ∧ (str ".secret" ∉ get_file_list demoFs9
       ∧ ∃ files, download_all_as_zip demoFs9 = Except.ok files
           ∧ (str ".secret", [1, 2, 3]) ∈ files) :=
  ⟨rfl, c9_zip_includes_hidden demoFs9 (str ".secret") [1, 2, 3] (by simp [demoFs9]) (by rfl)⟩

/-- C5: on a valid non-loopback dotted-quad IP, the scanner probes exactly
the candidate addresses in declared order (the probe log is the trace up to
and including the first success), never probes the address built from its own
last octet, returns on the first successful probe a record whose host is the
subnet prefix joined with that candidate octet and whose port is the given
port, and returns `none` once every candidate has failed. -/
theorem c5_scan_probe_order (sock : Except Unit (List Char))
    (http : List Char → Except Unit Nat) (port : Nat) (ip : List Char) (own : Nat)
    (hip : get_local_ip sock = ip)
    (hloop : ip ≠ loopbackIp)
    (hlen : (splitOnChar '.' ip).length = 4)
    (hown : pyIntParse ((splitOnChar '.' ip).getD 3 []) = some own) :
    scan_network_for_server sock http port
      = Except.ok
          ((firstHit (scanProbe http port) (scanHosts ip own)).map
            (fun h => { name := scanName, host := h, port := port }),
           probeTrace (scanProbe http port) (scanHosts ip own))
    ∧ mkHost (scanPfx ip) own ∉ probeTrace (scanProbe http port) (scanHosts ip own)
    ∧ (∀ h, firstHit (scanProbe http port) (scanHosts ip own) = some h →
        try_direct_connection http h port = true
        ∧ ∃ c, c ∈ SCAN_CANDIDATES ∧ c ≠ own ∧ h = mkHost (scanPfx ip) c)
    ∧ ((∀ c, c ∈ SCAN_CANDIDATES → c ≠ own →
          try_direct_connection http (mkHost (scanPfx ip) c) port = false) →
        firstHit (scanProbe http port) (scanHosts ip own) = none) := by
  refine ⟨?_, ?_, ?_, ?_⟩
  · have hmain : scan_network_for_server sock http port
        = Except.ok (scanLoop http (scanPfx ip) own port SCAN_CANDIDATES) := by
      unfold scan_network_for_server
      rw [hip, if_neg hloop]
      simp only [hlen, hown, scanPfx, if_true]
    rw [hmain, scanLoop_eq]
    rfl
  · intro hmem
    rcases List.mem_map.mp (probeTrace_subset hmem) with ⟨c, hc, heq⟩
    exact (skipOwn_mem hc).2 (mkHost_inj heq)
  · intro h hfh
    rcases firstHit_some hfh with ⟨hp, hmem⟩
    rcases List.mem_map.mp hmem with ⟨c, hc, heq⟩
    rcases skipOwn_mem hc with ⟨hcand, hcown⟩
    exact ⟨hp, c, hcand, hcown, heq.symm⟩
  · intro hall
    apply firstHit_none
    intro h hmem
    rcases List.mem_map.mp hmem with ⟨c, hc, heq⟩
    rcases skipOwn_mem hc with ⟨hcand, hcown⟩
    rw [← heq]
    exact hall c hcand hcown

/-- C5 witness: on IP `192.168.1.42` with exactly one live server at
`192.168.1.100:8000`, the scanner's behaviour matches the characterization
(the hypotheses of the theorem hold and are discharged concretely). -/
theorem c5_witness :
    scan_network_for_server (Except.ok ipDemo) httpW5 8000
      = Except.ok
          ((firstHit (scanProbe httpW5 8000) (scanHosts ipDemo 42)).map
            (fun h => { name := scanName, host := h, port := 8000 }),
           probeTrace (scanProbe httpW5 8000) (scanHosts ipDemo 42))
    ∧ mkHost (scanPfx ipDemo) 42 ∉ probeTrace (scanProbe httpW5 8000) (scanHosts ipDemo 42)
    ∧ (∀ h, firstHit (scanProbe httpW5 8000) (scanHosts ipDemo 42) = some h →
        try_direct_connection httpW5 h 8000 = true
        ∧ ∃ c, c ∈ SCAN_CANDIDATES ∧ c ≠ 42 ∧ h = mkHost (scanPfx ipDemo) c)
    ∧ ((∀ c, c ∈ SCAN_CANDIDATES → c ≠ 42 →
          try_direct_connection httpW5 (mkHost (scanPfx ipDemo) c) 8000 = false) →
        firstHit (scanProbe httpW5 8000) (scanHosts ipDemo 42) = none) :=
  c5_scan_probe_order (Except.ok ipDemo) httpW5 8000 ipDemo 42 rfl (by decide)
    (by rfl) (by rfl)

/-- C2 amended: `mdns_registration` non-none implies Hosting (a client never
holds a Registration), and a Hosting outcome holds exactly what
`register_mdns_service` returned — which is `none` when advertisement fails
or zeroconf is absent, so "non-none iff Hosting" does not hold in the
left-to-right-completeness direction (see `c2_counterexample`). -/
theorem c2_registration_only_when_hosting (env : MainEnv) (o : MainOutcome)
    (h : runMain env = Except.ok o) :
    (o.mdns_registration.isSome = true → o.result = ElectionResult.Hosting)
    ∧ (o.result = ElectionResult.Hosting →
        o.mdns_registration = register_mdns_service env.zcAvailable env.registerOk
          env.hostname PORT (get_local_ip env.sock2))
    ∧ (o.result ≠ ElectionResult.Hosting → o.mdns_registration = none) := by
  unfold runMain at h
  rcases hscan : scan_network_for_server env.sock env.http PORT with e | ⟨disc, log⟩
  · rw [hscan] at h; cases h
  · rw [hscan] at h
    cases disc with
    | none =>
      injection h with h
      subst h
      exact ⟨fun _ => rfl, fun _ => rfl, fun hne => absurd rfl hne⟩
    | some svc =>
      injection h with h
      subst h
      refine ⟨?_, ?_, fun _ => rfl⟩
      · intro hs; simp at hs
      · intro hres; cases hres

/-- C2 witness: a hosting run with the zeroconf stack available — the
outcome holds exactly the advertiser's registration. -/
theorem c2_witness :
    (outW2.mdns_registration.isSome = true → outW2.result = ElectionResult.Hosting)
    ∧ (outW2.result = ElectionResult.Hosting →
        outW2.mdns_registration = register_mdns_service envW2.zcAvailable envW2.registerOk
          envW2.hostname PORT (get_local_ip envW2.sock2))
    ∧ (outW2.result ≠ ElectionResult.Hosting → outW2.mdns_registration = none) :=
  c2_registration_only_when_hosting envW2 outW2 (by rfl)
